import Mathlib

/-!
Shallow embedding of the GitRepo module (src/aider/repo.py).

Paths are modelled as an absolute flag plus a list of name components,
mirroring pathlib PurePosixPath semantics (no dot or dotdot resolution is
performed by the operations modelled here, exactly as in pathlib).
Fallible calls into the underlying git library are modelled as oracle
inputs recorded in explicit state records; process environment variables
are explicit state threaded through the commit operation.  The mutable
per-instance caches of the Python class are passed in and returned
updated.
-/

namespace AiderRepo

/-- Truthiness of an optional string exactly as Python evaluates it:
None and the empty string are falsy, every other string is truthy. -/
def truthy : Option String → Bool
  | none => false
  | some s => !s.isEmpty

/-- A pathlib-style pure path: absolute flag plus name components. -/
structure PyPath where
  absolute : Bool
  parts : List String
deriving DecidableEq

/-- Path join, Path(root) / path: an absolute right operand replaces the
left operand, otherwise components are appended. -/
def joinPath (root p : PyPath) : PyPath :=
  if p.absolute then p else { absolute := root.absolute, parts := root.parts ++ p.parts }

/-- Path.relative_to: succeeds with the component suffix when root is a
lexical ancestor (its components are a prefix of the components of p and
both paths agree on absoluteness); otherwise pathlib raises ValueError,
modelled as none. -/
def relative_to (p root : PyPath) : Option (List String) :=
  if (p.absolute == root.absolute) && root.parts.isPrefixOf p.parts then
    some (p.parts.drop root.parts.length)
  else none

/-- GitRepo.normalize_path (repo.py lines 385-393): the components of
str(Path(PurePosixPath((Path(self.root) / path).relative_to(self.root)))).
A none result is the uncaught ValueError raised by relative_to (the
PathResolutionError of the spec).  The per-instance memo
self.normalized_path only caches values of this pure function, so it is
semantically transparent and not modelled as separate state. -/
def normalize_path (root : PyPath) (path : PyPath) : Option (List String) :=
  relative_to (joinPath root path) root

/-- Configuration bits consulted by GitRepo.ignored_file_raw: the
subtree_only flag, whether an aider ignore file is configured
(self.aider_ignore_file is truthy), and whether that file exists on disk
(self.aider_ignore_file.is_file()). -/
structure IgnoreConfig where
  subtree_only : Bool
  has_aider_ignore_file : Bool
  aider_ignore_is_file : Bool
deriving DecidableEq

/-- GitRepo.ignored_file_raw (repo.py lines 437-460).  cwd is the resolved
current working directory; spec_match is the compiled
aider_ignore_spec.match_file predicate over normalized path components.
In the subtree_only block, a ValueError from either normalize_path or the
cwd relative_to computation is caught and yields True; the Python test
"cwd_path not in fname_path.parents and fname_path != cwd_path" is
component-prefix membership.  GitRepo.ignored_file is this function
behind a per-path result cache (flushed when the ignore file changes),
hence semantically identical per call and not modelled separately. -/
def ignored_file_raw (root cwd : PyPath) (cfg : IgnoreConfig)
    (spec_match : List String → Bool) (fname : PyPath) : Bool :=
  let subtree_result : Option Bool :=
    if cfg.subtree_only then
      match normalize_path root fname, relative_to cwd root with
      | some fname_path, some cwd_path =>
          if cwd_path.isPrefixOf fname_path then none else some true
      | _, _ => some true
    else none
  match subtree_result with
  | some b => b
  | none =>
    if !cfg.has_aider_ignore_file || !cfg.aider_ignore_is_file then false
    else
      match normalize_path root fname with
      | none => true
      | some fname2 => spec_match fname2
end AiderRepo

namespace AiderRepo

/-- Snapshot of the live repository state read by GitRepo.get_tracked_files:
the head commit (none in a freshly initialized repository, where
repo.head.commit raises ValueError), the blob paths of the head commit
tree (entries whose read raises IndexError are skipped by the traversal
loop and so simply do not appear here), and the staged index entry
paths. -/
structure RepoSnapshot where
  head_commit : Option Nat
  tree_blobs : List String
  staged_paths : List String

/-- Replacement of the value stored under a key of the tree_files cache:
a Python dict entry whose stored set object is mutated in place. -/
def replace_entry (c : Nat) (v : Finset String) :
    List (Nat × Finset String) → List (Nat × Finset String)
  | [] => []
  | (k, w) :: rest =>
    if k == c then (k, v) :: rest else (k, w) :: replace_entry c v rest

/-- GitRepo.get_tracked_files (repo.py lines 328-383) on its non-error
paths.  norm abstracts self.normalize_path and ignored_file abstracts
self.ignored_file (both modelled in detail elsewhere in this file);
tree_files is the per-commit cache dict.  On a cache miss the code stores
set(files), a copy taken before the staged paths are merged; on a cache
hit the bound name files aliases the stored set object, so
files.update(staged) mutates the cache entry itself, which is what
replace_entry records.  The ANY_GIT_ERROR handlers (corrupted repository)
return an empty list early and are outside the claims settled here. -/
def get_tracked_files (norm : String → String) (ignored_file : String → Bool)
    (snap : RepoSnapshot) (tree_files : List (Nat × Finset String)) :
    Finset String × List (Nat × Finset String) :=
  match snap.head_commit with
  | none =>
      let files : Finset String := (snap.staged_paths.map norm).toFinset
      (files.filter (fun f => ignored_file f = false), tree_files)
  | some c =>
      match tree_files.lookup c with
      | some cached =>
          let files := cached ∪ (snap.staged_paths.map norm).toFinset
          (files.filter (fun f => ignored_file f = false), replace_entry c files tree_files)
      | none =>
          let tree := (snap.tree_blobs.map norm).toFinset
          let tree_files2 := (c, tree) :: tree_files
          let files := tree ∪ (snap.staged_paths.map norm).toFinset
          (files.filter (fun f => ignored_file f = false), tree_files2)

/-- GitRepo._determine_git_flow_branches (repo.py lines 126-164).
branchesResult models enumerating self.repo.branches by name (the list
comprehension at line 129); currentResult models get_current_branch,
which can raise ValueError.  If either raises, the except handler runs:
it falls back to self.primary_branch_name or "main" (Python or, so the
empty string also falls back) and then re-evaluates
"develop" in self.repo.branches, a second enumeration that is modelled by
the same oracle answer and therefore raises again when enumeration is the
failing operation, propagating out of the handler. -/
def determine_git_flow_branches (primary_branch_name : String)
    (branchesResult : Except Unit (List String))
    (currentResult : Except Unit String) : Except Unit (String × String) :=
  match branchesResult, currentResult with
  | Except.ok branches, Except.ok current_branch =>
    let primary :=
      if branches.contains primary_branch_name then primary_branch_name
      else if branches.contains "main" then "main"
      else if branches.contains "master" then "master"
      else if branches.contains "develop" then "develop"
      else current_branch
    let develop := if branches.contains "develop" then "develop" else primary
    Except.ok (primary, develop)
  | _, _ =>
    let primary := if primary_branch_name = "" then "main" else primary_branch_name
    match branchesResult with
    | Except.ok branches =>
        Except.ok (primary, if branches.contains "develop" then "develop" else primary)
    | Except.error e => Except.error e

/-- Word character in the sense of the regex class used at repo.py line
578 (letters, digits, underscore; the model restricts to ASCII). -/
def is_word_char (c : Char) : Bool :=
  c.isAlpha || c.isDigit || c = '_'

/-- Model of re.sub with pattern a run of characters that are neither
word characters nor hyphens, replacement a single hyphen: each maximal
such run emits one hyphen (flag records being inside a run); characters
that are word characters or hyphens pass through unchanged. -/
def sub_nonword_aux : Bool → List Char → List Char
  | _, [] => []
  | inRun, c :: cs =>
    if is_word_char c || c = '-' then c :: sub_nonword_aux false cs
    else if inRun then sub_nonword_aux true cs
    else '-' :: sub_nonword_aux true cs

/-- Python str.strip with argument a hyphen: remove leading and trailing
hyphens. -/
def strip_hyphens (l : List Char) : List Char :=
  ((l.dropWhile (fun c => c = '-')).reverse.dropWhile (fun c => c = '-')).reverse

/-- Suffix sanitization of repo.py line 578: substitute runs, strip
hyphens from both ends, then lower-case. -/
def safe_suffix (suffix : String) : String :=
  String.mk ((strip_hyphens (sub_nonword_aux false suffix.data)).map Char.toLower)

/-- Branch name assembly of GitRepo.create_feature_branch (repo.py lines
568-586): base name from the strftime timestamp and the develop head
short hash (or the literal nohash when the commit lookup raised), the
sanitized suffix appended when the caller-supplied suffix is truthy, and
the result truncated to the first 100 characters. -/
def feature_branch_name (timestamp : String) (short_hash : Option String)
    (suffix : Option String) : String :=
  let base_name := "aider/feature-" ++ timestamp ++ "-" ++ short_hash.getD "nohash"
  let branch_name :=
    match suffix with
    | some s => if s.isEmpty then base_name else base_name ++ "-" ++ safe_suffix s
    | none => base_name
  String.mk (branch_name.data.take 100)

/-- Oracle inputs consumed by GitRepo.create_feature_branch: dirtiness of
the working tree, current and develop branch names, whether checking out
the develop branch succeeds (checkout_develop_branch), the
datetime.now().strftime timestamp string, the develop head short hash
(none when repo.commit(develop) raises), the existing local branch names,
and whether the git branch creation and checkout operations succeed. -/
structure FeatureEnv where
  is_dirty : Bool
  current_branch : String
  develop_branch : String
  checkout_develop_ok : Bool
  timestamp : String
  develop_head_short : Option String
  branches : List String
  git_ops_ok : Bool

/-- Result of create_feature_branch: raised covers every ValueError path
(dirty tree, failed checkout of develop, failed branch creation or
checkout); ok carries the final branch name and whether the branch
already existed (in which case it was checked out, not created). -/
inductive FBResult where
  | raised
  | ok (branch_name : String) (preexisting : Bool)
deriving DecidableEq

/-- GitRepo.create_feature_branch (repo.py lines 554-601): fail on a
dirty tree; switch to the develop branch when not already on it,
propagating a failed switch; assemble the branch name; when a branch of
that exact name exists, warn and check it out; otherwise create and
check out the new branch. -/
def create_feature_branch (fe : FeatureEnv) (suffix : Option String) : FBResult :=
  if fe.is_dirty then FBResult.raised
  else if (fe.current_branch != fe.develop_branch) && !fe.checkout_develop_ok then
    FBResult.raised
  else
    let branch_name := feature_branch_name fe.timestamp fe.develop_head_short suffix
    if fe.branches.contains branch_name then
      if fe.git_ops_ok then FBResult.ok branch_name true else FBResult.raised
    else if fe.git_ops_ok then FBResult.ok branch_name false
    else FBResult.raised

/-- One candidate model of the get_commit_message loop: the token count
of the built message exchange, the declared maximum input token budget
(info.get with Python or 0, so an absent budget is 0 here), and the
simple_send_with_retries response (none when the backend returned
None). -/
structure GenModel where
  num_tokens : Nat
  max_input_tokens : Nat
  response : Option String

/-- Loop body of GitRepo.get_commit_message (repo.py lines 258-266): skip
a model whose nonzero budget is exceeded; take the first truthy response;
a falsy response (None or empty) falls through to the next model; no
truthy response leaves the loop with a falsy value. -/
def generate_from_models : List GenModel → Option String
  | [] => none
  | m :: ms =>
    if m.max_input_tokens ≠ 0 ∧ m.num_tokens > m.max_input_tokens then
      generate_from_models ms
    else if truthy m.response then m.response
    else generate_from_models ms

/-- Quote stripping of repo.py lines 273-274: when the message starts and
ends with a double quote character, drop those two characters and strip
whitespace again. -/
def strip_quotes (s : String) : String :=
  if s.length > 0 && s.front == '"' && s.back == '"' then
    ((s.drop 1).dropRight 1).trim
  else s

/-- GitRepo.get_commit_message (repo.py lines 244-276) after the message
exchange has been built: none models the path that reports
Failed to generate commit message and returns None; otherwise the loop
result is stripped of surrounding whitespace and one pair of enclosing
quotes.  The token accounting is carried per model inside GenModel. -/
def get_commit_message (models : List GenModel) : Option String :=
  match generate_from_models models with
  | none => none
  | some msg => some (strip_quotes msg.trim)

/-- The two process environment variables touched by GitRepo.commit.
none means the variable is unset. -/
structure Env where
  git_committer_name : Option String
  git_author_name : Option String
deriving DecidableEq

/-- Repository-level flags of the GitRepo instance consulted by commit.
git_commit_verify only toggles the no-verify command line flag and does
not otherwise affect the modelled behaviour. -/
structure RepoParams where
  attribute_author : Bool
  attribute_committer : Bool
  attribute_commit_message_author : Bool
  attribute_commit_message_committer : Bool
  git_commit_verify : Bool
deriving DecidableEq

/-- Python exceptions that can escape the modelled fragment of commit:
the TypeError from concatenating the attribution string with None, the
GitCommandError from the unguarded git config identity lookup, and an
exception from the commit command that falls outside the ANY_GIT_ERROR
tuple. -/
inductive PyExn where
  | typeError
  | gitCommandError
  | otherExn
deriving DecidableEq

/-- Outcome of the repo.git.commit(cmd) invocation: success, an exception
belonging to the ANY_GIT_ERROR tuple (caught by the except clause), or an
exception outside that tuple (uncaught, still running the finally
block). -/
inductive CmdOutcome where
  | ok
  | errCaught
  | errUncaught
deriving DecidableEq

/-- Oracle inputs consumed by GitRepo.commit: repo.is_dirty(), the
get_diffs result (none when get_diffs swallowed a git error and returned
None), the commit message generation backends, the git config user.name
lookup (none when the config command raises, as it does when user.name is
unset), per-file staging success, the commit command outcome, and the
get_head_commit_sha short hash (none when the head lookup fails). -/
structure CommitWorld where
  is_dirty : Bool
  diffs : Option String
  models : List GenModel
  config_user_name : Option String
  add_ok : String → Bool
  commit_cmd : CmdOutcome
  head_short_sha : Option String

/-- How a commit invocation ended: a normal return (none being the bare
return paths, some carrying the returned hash and message pair), or a
propagated exception. -/
inductive CommitResult where
  | ret (r : Option (Option String × String))
  | raised (e : PyExn)
deriving DecidableEq

/-- Whether a commit invocation returned normally. -/
def CommitResult.isRet : CommitResult → Bool
  | CommitResult.ret _ => true
  | CommitResult.raised _ => false

/-- Observable outcome of one GitRepo.commit call: the result, the final
process environment, whether the commit command ran and succeeded (a
VCS write happened), and the sequence of io.tool_error reports. -/
structure CommitOutput where
  result : CommitResult
  env : Env
  commit_executed : Bool
  errors : List String
deriving DecidableEq

/-- Attribution step of repo.py lines 179-182: an if branch for an aider
edit with author message attribution enabled, an elif branch for
committer message attribution; each branch concatenates the attribution
string onto the message, which raises TypeError when the message is
None. -/
def attribute_commit_message (aider_edits a_author a_committer : Bool)
    (cm : Option String) : Except PyExn (Option String) :=
  if aider_edits && a_author then
    match cm with
    | some m => Except.ok (some ("aider: " ++ m))
    | none => Except.error PyExn.typeError
  else if a_committer then
    match cm with
    | some m => Except.ok (some ("aider: " ++ m))
    | none => Except.error PyExn.typeError
  else Except.ok cm

/-- Whether the attribution step completed without raising. -/
def exn_free (x : Except PyExn (Option String)) : Bool :=
  match x with
  | Except.ok _ => true
  | Except.error _ => false

/-- The finally block of repo.py lines 223-236: when committer
attribution is on, put back the saved committer variable (deleting it
when it was unset); when this was an aider edit with author attribution
on, likewise put back the saved author variable. -/
def restore_env (a_committer restore_author : Bool) (origC origA : Option String)
    (e : Env) : Env :=
  let e1 := if a_committer then { e with git_committer_name := origC } else e
  if restore_author then { e1 with git_author_name := origA } else e1

/-- Message selection of repo.py lines 174-177: a truthy explicit message
argument wins, otherwise the message is synthesized. -/
def step3_message (w : CommitWorld) (message : Option String) : Option String :=
  if truthy message then message else get_commit_message w.models

/-- GitRepo.commit (repo.py lines 166-236).  Control flow in source
order: the clean no-op return, the empty-diff return, message selection,
the attribution message step (which can raise TypeError), the placeholder
substitution for a falsy message, staging of explicit paths with
individual failures only reported, the unguarded git config user.name
lookup (whose failure propagates), the environment variable overrides,
and the commit command inside try/except ANY_GIT_ERROR/finally.  The
command vector assembly (the -m, no-verify, path and -a arguments) has no
observable effect beyond the message already tracked and is not
re-modelled; abs_root_path only absolutizes the staged path names. -/
def commit (w : CommitWorld) (env : Env) (p : RepoParams)
    (fnames : List String) (message : Option String) (aider_edits : Bool) :
    CommitOutput :=
  if fnames.isEmpty && !w.is_dirty then ⟨CommitResult.ret none, env, false, []⟩
  else if !(truthy w.diffs) then ⟨CommitResult.ret none, env, false, []⟩
  else
    let commit_message_0 := step3_message w message
    let gen_errors : List String :=
      if !(truthy message) && (get_commit_message w.models).isNone then
        ["Failed to generate commit message!"]
      else []
    match attribute_commit_message aider_edits p.attribute_commit_message_author
        p.attribute_commit_message_committer commit_message_0 with
    | Except.error e => ⟨CommitResult.raised e, env, false, gen_errors⟩
    | Except.ok commit_message_1 =>
      let commit_message : String :=
        match commit_message_1 with
        | none => "(no commit message provided)"
        | some m => if m.isEmpty then "(no commit message provided)" else m
      let stage_errors : List String :=
        if fnames.isEmpty then []
        else (fnames.filter (fun f => !(w.add_ok f))).map (fun f => "Unable to add " ++ f)
      match w.config_user_name with
      | none =>
          ⟨CommitResult.raised PyExn.gitCommandError, env, false, gen_errors ++ stage_errors⟩
      | some user_name =>
        let committer_name := user_name ++ " (aider)"
        let origC := env.git_committer_name
        let origA := env.git_author_name
        let env1 :=
          if p.attribute_committer then { env with git_committer_name := some committer_name }
          else env
        let env2 :=
          if aider_edits && p.attribute_author then { env1 with git_author_name := some committer_name }
          else env1
        let restore_author := aider_edits && p.attribute_author
        match w.commit_cmd with
        | CmdOutcome.ok =>
            ⟨CommitResult.ret (some (w.head_short_sha, commit_message)),
             restore_env p.attribute_committer restore_author origC origA env2,
             true, gen_errors ++ stage_errors⟩
        | CmdOutcome.errCaught =>
            ⟨CommitResult.ret none,
             restore_env p.attribute_committer restore_author origC origA env2,
             false, gen_errors ++ stage_errors ++ ["Unable to commit"]⟩
        | CmdOutcome.errUncaught =>
            ⟨CommitResult.raised PyExn.otherExn,
             restore_env p.attribute_committer restore_author origC origA env2,
             false, gen_errors ++ stage_errors⟩

/-- Primary branch role resolution as claim C7 states it: the configured
preferred name when it exists among the branches, else main, else
master, else develop, else the current branch. -/
def primary_role_claim (preferred current : String) (branches : List String) : String :=
  if branches.contains preferred then preferred
  else if branches.contains "main" then "main"
  else if branches.contains "master" then "master"
  else if branches.contains "develop" then "develop"
  else current

/-- Develop branch role resolution as claim C7 states it: develop when it
exists among the branches, else the resolved primary name. -/
def develop_role_claim (primary : String) (branches : List String) : String :=
  if branches.contains "develop" then "develop" else primary

/-- Suffix sanitization as claim C8 words it: every maximal run of
non-word characters (which includes hyphens, since a hyphen is not a word
character) collapses to a single hyphen, then hyphens are trimmed from
both ends and the result is lower-cased. -/
def claim_sanitize_aux : Bool → List Char → List Char
  | _, [] => []
  | inRun, c :: cs =>
    if is_word_char c then c :: claim_sanitize_aux false cs
    else if inRun then claim_sanitize_aux true cs
    else '-' :: claim_sanitize_aux true cs

/-- Full claim-side sanitizer built from claim_sanitize_aux, for
comparison with safe_suffix, the sanitizer of the code. -/
def claim_sanitize (s : String) : String :=
  String.mk ((strip_hyphens (claim_sanitize_aux false s.data)).map Char.toLower)

/-- Example repository root used by concrete evaluations. -/
def rootEx : PyPath := ⟨true, ["home", "user", "repo"]⟩

/-- Example absolute path outside the repository root. -/
def fnameEx : PyPath := ⟨true, ["etc", "passwd"]⟩

/-- Snapshot with head commit 1, one tree blob and an empty index. -/
def snapA : RepoSnapshot := ⟨some 1, ["a"], []⟩

/-- Snapshot with head commit 1, the same tree and one staged path. -/
def snapB : RepoSnapshot := ⟨some 1, ["a"], ["b"]⟩

/-- First get_tracked_files call: empty cache, empty index. -/
def c4_step1 : Finset String × List (Nat × Finset String) :=
  get_tracked_files (fun s => s) (fun _ => false) snapA []

/-- Second call: cache populated by the first call, path b staged. -/
def c4_step2 : Finset String × List (Nat × Finset String) :=
  get_tracked_files (fun s => s) (fun _ => false) snapB c4_step1.2

/-- Third call: path b no longer staged, cache carried over. -/
def c4_step3 : Finset String × List (Nat × Finset String) :=
  get_tracked_files (fun s => s) (fun _ => false) snapA c4_step2.2

/-- Snapshot used by the C10 witness. -/
def snapW : RepoSnapshot := ⟨some 1, ["a"], []⟩

/-- Empty environment: both attribution variables unset. -/
def env0 : Env := ⟨none, none⟩

/-- Repository flags with every attribution switch off. -/
def pAllFalse : RepoParams := ⟨false, false, false, false, true⟩

/-- Commit oracle: dirty tree, nonempty diff, no generation backends (so
synthesis yields nothing), identity lookup succeeds, commit command
succeeds. -/
def wGenFail : CommitWorld :=
  ⟨true, some "d", [], some "Alice", fun _ => true, CmdOutcome.ok, some "abc1234"⟩

/-- Commit oracle: dirty tree, nonempty diff, the git config identity
lookup raises. -/
def wCfgFail : CommitWorld :=
  ⟨true, some "d", [], none, fun _ => true, CmdOutcome.ok, some "abc1234"⟩

/-- Commit oracle: dirty tree, nonempty diff, identity lookup succeeds,
the commit command raises an error of the ANY_GIT_ERROR tuple. -/
def wCmdFail : CommitWorld :=
  ⟨true, some "d", [], some "Alice", fun _ => true, CmdOutcome.errCaught, some "abc1234"⟩

/-- Feature branch oracle: clean tree, already on develop, commit lookup
yields a short hash, no existing branches, git operations succeed. -/
def feEx : FeatureEnv :=
  ⟨false, "develop", "develop", true, "20260101-120000", some "abc123", [], true⟩

/-- Helper: undoing the environment overrides of commit restores the
original environment exactly, for every combination of flags. -/
theorem restore_env_of_overrides (ac ra : Bool) (cn : String) (e : Env) :
    restore_env ac ra e.git_committer_name e.git_author_name
      (let e1 := if ac then { e with git_committer_name := some cn } else e
       if ra then { e1 with git_author_name := some cn } else e1) = e := by
  cases e
  cases ac <;> cases ra <;> simp [restore_env]

/-- Helper: looking up a key after replacing its entry finds the new
value, provided the key was present. -/
theorem lookup_replace_entry (c : Nat) (v : Finset String)
    (cache : List (Nat × Finset String)) (s : Finset String)
    (h : cache.lookup c = some s) :
    (replace_entry c v cache).lookup c = some v := by
  induction cache with
  | nil => simp [List.lookup] at h
  | cons hd tl ih =>
    obtain ⟨k, w⟩ := hd
    by_cases hk : k = c
    · subst hk
      simp [replace_entry, List.lookup]
    · have hk2 : (k == c) = false := by simp [hk]
      have hk3 : (c == k) = false := by simp [Ne.symm hk]
      simp only [replace_entry, hk2, if_false, List.lookup, hk3] at h ⊢
      exact ih h

/-- C1: the claim says a commit invocation with no explicit message whose
synthesis yields nothing reports an error and aborts with no commit; the
code instead substitutes the placeholder message and proceeds to commit.
Concretely, with no generation backends, all message attribution switches
off and a successful commit command, commit returns the head hash with
the placeholder message, the commit command runs, and only the generation
failure is reported. -/
theorem C1_counterexample :
    commit wGenFail env0 pAllFalse [] none false =
      ⟨CommitResult.ret (some (some "abc1234", "(no commit message provided)")),
       env0, true, ["Failed to generate commit message!"]⟩ := by
  decide

/-- C1 (amended): when no explicit message is supplied and synthesis
yields nothing, commit reports the generation failure but does not
abort: if a message attribution switch applies, the concatenation with
the absent message raises TypeError before any commit; otherwise the
placeholder message is substituted and the commit proceeds. -/
theorem C1_amended (w : CommitWorld) (env : Env) (p : RepoParams)
    (fnames : List String) (aider_edits : Bool)
    (hcall : (fnames.isEmpty && !w.is_dirty) = false)
    (hdiff : truthy w.diffs = true)
    (hgen : get_commit_message w.models = none)
    (hcfg : w.config_user_name.isSome = true)
    (hcmd : w.commit_cmd = CmdOutcome.ok) :
    "Failed to generate commit message!" ∈ (commit w env p fnames none aider_edits).errors ∧
    (((aider_edits && p.attribute_commit_message_author)
        || p.attribute_commit_message_committer) = true →
      (commit w env p fnames none aider_edits).result = CommitResult.raised PyExn.typeError ∧
      (commit w env p fnames none aider_edits).commit_executed = false) ∧
    (((aider_edits && p.attribute_commit_message_author)
        || p.attribute_commit_message_committer) = false →
      (commit w env p fnames none aider_edits).result =
        CommitResult.ret (some (w.head_short_sha, "(no commit message provided)")) ∧
      (commit w env p fnames none aider_edits).commit_executed = true) := by
  obtain ⟨u, hu⟩ := Option.isSome_iff_exists.mp hcfg
  have htn : truthy none = false := rfl
  cases haa : (aider_edits && p.attribute_commit_message_author) <;>
    cases hcc : p.attribute_commit_message_committer <;>
      simp [commit, step3_message, attribute_commit_message, htn, hgen, hcall, hdiff,
        hu, hcmd, haa, hcc]

/-- C1 amended witness: concrete invocation with no backends and all
attribution switches off commits with the placeholder message. -/
theorem C1_amended_witness :
    (commit wGenFail env0 pAllFalse [] none false).result =
      CommitResult.ret (some (some "abc1234", "(no commit message provided)")) ∧
    "Failed to generate commit message!" ∈ (commit wGenFail env0 pAllFalse [] none false).errors := by
  have h := C1_amended wGenFail env0 pAllFalse [] false (by decide) (by decide) rfl rfl rfl
  exact ⟨(h.2.2 (by decide)).1, h.1⟩

/-- C2: after every commit invocation, on every control path including
the raising ones, both attribution environment variables hold exactly
their initial values again (removal when previously unset is the none
value of the field). -/
theorem C2_commit_env_restored (w : CommitWorld) (env : Env) (p : RepoParams)
    (fnames : List String) (message : Option String) (aider_edits : Bool) :
    (commit w env p fnames message aider_edits).env = env := by
  cases env with
  | mk ec ea =>
    simp only [commit]
    repeat' split <;> try rfl
    all_goals simp only [restore_env]
    all_goals simp_all

/-- C3: the claim says every path outside the repository root is ignored
in every configuration; the code returns false for such a path when
subtree mode is off and no aider ignore file is configured, because that
configuration check returns before any path resolution happens.
Normalization does fail as claimed. -/
theorem C3_counterexample :
    normalize_path rootEx fnameEx = none ∧
    ignored_file_raw rootEx rootEx ⟨false, false, false⟩ (fun _ => false) fnameEx = false := by
  decide

/-- C3 (amended): for an absolute path not under the repository root,
normalize_path fails (the PathResolutionError of the spec), and
ignored_file_raw returns true exactly when subtree mode is on or an
aider ignore file is configured and exists; with subtree mode off and no
usable ignore file it returns false. -/
theorem C3_amended (root cwd fname : PyPath) (cfg : IgnoreConfig)
    (spec_match : List String → Bool)
    (hroot : root.absolute = true) (hf : fname.absolute = true)
    (hout : root.parts.isPrefixOf fname.parts = false) :
    normalize_path root fname = none ∧
    ignored_file_raw root cwd cfg spec_match fname =
      (cfg.subtree_only || (cfg.has_aider_ignore_file && cfg.aider_ignore_is_file)) := by
  have hnorm : normalize_path root fname = none := by
    simp [normalize_path, joinPath, relative_to, hf, hroot, hout]
  refine ⟨hnorm, ?_⟩
  cases hsub : cfg.subtree_only <;>
    cases hhas : cfg.has_aider_ignore_file <;>
      cases hisf : cfg.aider_ignore_is_file <;>
        simp [ignored_file_raw, hnorm, hsub, hhas, hisf]

/-- C3 amended witness: with subtree mode on, the outside path is both
unresolvable and ignored. -/
theorem C3_amended_witness :
    normalize_path rootEx fnameEx = none ∧
    ignored_file_raw rootEx rootEx ⟨true, false, false⟩ (fun _ => false) fnameEx = true := by
  have h := C3_amended rootEx rootEx fnameEx ⟨true, false, false⟩ (fun _ => false)
    rfl rfl (by decide)
  exact ⟨h.1, by simpa using h.2⟩

/-- C4: the claim says every call returns exactly the union of head tree
blob paths and currently staged paths minus ignored ones; after a cache
hit merged a staged path into the cached set, a later call returns that
path although it is neither in the head tree nor staged any more. -/
theorem C4_counterexample :
    "b" ∈ c4_step3.1 ∧ "b" ∉ snapA.tree_blobs ∧ "b" ∉ snapA.staged_paths := by
  decide

/-- C4 (amended): a call that populates the cache (and any call without a
head commit) returns exactly the normalized union of head tree blob
paths and staged paths minus ignored ones; cache-hit calls can
additionally return paths staged during earlier cache-hit calls under
the same head commit; in every case the result never contains a path the
ignore filter rejects. -/
theorem C4_amended (norm : String → String) (ignored_file : String → Bool)
    (snap : RepoSnapshot) (cache : List (Nat × Finset String)) :
    (∀ c, snap.head_commit = some c → cache.lookup c = none →
      (get_tracked_files norm ignored_file snap cache).1 =
        ((snap.tree_blobs.map norm).toFinset ∪ (snap.staged_paths.map norm).toFinset).filter
          (fun f => ignored_file f = false)) ∧
    (snap.head_commit = none →
      (get_tracked_files norm ignored_file snap cache).1 =
        ((snap.staged_paths.map norm).toFinset).filter (fun f => ignored_file f = false)) ∧
    (∀ f, f ∈ (get_tracked_files norm ignored_file snap cache).1 → ignored_file f = false) := by
  refine ⟨?_, ?_, ?_⟩
  · intro c hc hl
    simp [get_tracked_files, hc, hl]
  · intro h
    simp [get_tracked_files, h]
  · intro f hf
    cases hh : snap.head_commit with
    | none =>
      simp [get_tracked_files, hh] at hf
      exact hf.2
    | some c =>
      cases hl : cache.lookup c with
      | none =>
        simp [get_tracked_files, hh, hl] at hf
        exact hf.2
      | some s =>
        simp [get_tracked_files, hh, hl] at hf
        exact hf.2

/-- C4 amended witness: the cache-populating call on a repository with
one tree blob and an empty index returns exactly that blob. -/
theorem C4_amended_witness :
    (get_tracked_files (fun s => s) (fun _ => false) snapA []).1 = ({"a"} : Finset String) := by
  have h := (C4_amended (fun s => s) (fun _ => false) snapA []).1 1 rfl rfl
  rw [h]
  decide

/-- C5: the claim says no exception ever propagates out of commit; the
unguarded git config identity lookup raises past the boundary when
user.name is unset. -/
theorem C5_counterexample :
    commit wCfgFail env0 pAllFalse [] (some "msg") false =
      ⟨CommitResult.raised PyExn.gitCommandError, env0, false, []⟩ := by
  decide

/-- C5 (amended): when the identity lookup succeeds, the message
attribution step does not hit an absent message, and the commit command
failure (if any) belongs to the recognized error tuple, no exception
propagates: commit returns normally, and on a failed commit command it
reports the failure and returns absent. -/
theorem C5_amended (w : CommitWorld) (env : Env) (p : RepoParams)
    (fnames : List String) (message : Option String) (aider_edits : Bool)
    (hcall : (fnames.isEmpty && !w.is_dirty) = false)
    (hdiff : truthy w.diffs = true)
    (hcfg : w.config_user_name.isSome = true)
    (hcmd : w.commit_cmd ≠ CmdOutcome.errUncaught)
    (hmsg : exn_free (attribute_commit_message aider_edits
        p.attribute_commit_message_author p.attribute_commit_message_committer
        (step3_message w message)) = true) :
    (commit w env p fnames message aider_edits).result.isRet = true ∧
    (w.commit_cmd = CmdOutcome.errCaught →
      (commit w env p fnames message aider_edits).result = CommitResult.ret none ∧
      "Unable to commit" ∈ (commit w env p fnames message aider_edits).errors) := by
  obtain ⟨u, hu⟩ := Option.isSome_iff_exists.mp hcfg
  cases hA : attribute_commit_message aider_edits p.attribute_commit_message_author
      p.attribute_commit_message_committer (step3_message w message) with
  | error e => simp [exn_free, hA] at hmsg
  | ok cm1 =>
    cases hw : w.commit_cmd with
    | ok => simp [commit, hcall, hdiff, hu, hA, hw, CommitResult.isRet]
    | errCaught => simp [commit, hcall, hdiff, hu, hA, hw, CommitResult.isRet]
    | errUncaught => exact absurd hw hcmd

/-- C5 amended witness: concrete invocation whose commit command fails
with a recognized error returns absent and reports the failure. -/
theorem C5_amended_witness :
    (commit wCmdFail env0 pAllFalse [] (some "msg") false).result = CommitResult.ret none ∧
    "Unable to commit" ∈ (commit wCmdFail env0 pAllFalse [] (some "msg") false).errors := by
  have h := C5_amended wCmdFail env0 pAllFalse [] (some "msg") false
    (by decide) (by decide) rfl (by decide) (by decide)
  exact h.2 rfl

/-- C6: the attribution message step adds at most one attribution marker:
the result is the marker prepended exactly when this is an aider edit
with author message attribution enabled or committer message attribution
is enabled, and the original message otherwise; both branches of the
if/elif produce the same single marker, so precedence never yields two. -/
theorem C6_single_attribution (aider_edits a_author a_committer : Bool) (m : String) :
    attribute_commit_message aider_edits a_author a_committer (some m) =
      Except.ok (some (if (aider_edits && a_author) || a_committer then "aider: " ++ m else m)) := by
  cases aider_edits <;> cases a_author <;> cases a_committer <;>
    simp [attribute_commit_message]

/-- C7: branch role resolution matches the claimed precedence chains for
every branch set, configured name and current branch, and on the concrete
branch set master, develop with configured primary name main it resolves
primary to master and develop to develop. -/
theorem C7_branch_resolution (name current : String) (branches : List String) :
    determine_git_flow_branches name (Except.ok branches) (Except.ok current) =
      Except.ok (primary_role_claim name current branches,
        develop_role_claim (primary_role_claim name current branches) branches) ∧
    determine_git_flow_branches "main" (Except.ok ["master", "develop"]) (Except.ok "master") =
      Except.ok ("master", "develop") := by
  exact ⟨rfl, rfl⟩

/-- C8: the claim says the suffix sanitizer collapses runs of non-word
characters to single hyphens; the code keeps interior hyphens untouched,
so the suffix a!-!b yields the branch name ending a---b where the claim
predicts a-b. -/
theorem C8_counterexample :
    create_feature_branch feEx (some "a!-!b") =
      FBResult.ok "aider/feature-20260101-120000-abc123-a---b" false ∧
    "aider/feature-20260101-120000-abc123-a---b" ≠
      "aider/feature-20260101-120000-abc123-" ++ claim_sanitize "a!-!b" := by
  decide

/-- C8 (amended): on a clean tree with the develop checkout and git
operations succeeding, create_feature_branch returns and checks out the
assembled branch name (timestamp, short hash or nohash, then for a
nonempty suffix a hyphen and the sanitized suffix, where sanitization
collapses runs of characters that are neither word characters nor
hyphens to single hyphens, trims hyphens, and lower-cases), truncated to
at most 100 characters; a preexisting branch of that name is checked out
rather than an error raised. -/
theorem C8_amended (fe : FeatureEnv) (suffix : Option String)
    (hclean : fe.is_dirty = false)
    (hsw : ((fe.current_branch == fe.develop_branch) || fe.checkout_develop_ok) = true)
    (hops : fe.git_ops_ok = true) :
    create_feature_branch fe suffix =
      FBResult.ok (feature_branch_name fe.timestamp fe.develop_head_short suffix)
        (fe.branches.contains (feature_branch_name fe.timestamp fe.develop_head_short suffix)) ∧
    (feature_branch_name fe.timestamp fe.develop_head_short suffix).data.length ≤ 100 := by
  constructor
  · have hng : ((fe.current_branch != fe.develop_branch) && !fe.checkout_develop_ok) = false := by
      cases hb : (fe.current_branch == fe.develop_branch) <;> simp_all [bne]
    cases hc : fe.branches.contains (feature_branch_name fe.timestamp fe.develop_head_short suffix) <;>
      simp [create_feature_branch, hclean, hng, hc, hops] <;>
        simpa using hc
  · simp [feature_branch_name, List.length_take]

/-- C8 amended witness: concrete clean-tree invocation produces the
assembled and truncated branch name. -/
theorem C8_amended_witness :
    create_feature_branch feEx (some "a!-!b") =
      FBResult.ok "aider/feature-20260101-120000-abc123-a---b" false := by
  have h := C8_amended feEx (some "a!-!b") rfl (by decide) rfl
  exact h.1.trans (by decide)

/-- C9: the claim says no exception propagates out of branch role
resolution; when enumerating the branches is the failing operation, the
except handler re-enumerates them to decide the develop fallback and the
exception propagates to the caller. -/
theorem C9_counterexample :
    determine_git_flow_branches "main" (Except.error ()) (Except.ok "main") =
      Except.error () := by
  rfl

/-- C9 (amended): when branch enumeration succeeded and the failure came
later in resolution (determining the current branch), no exception
propagates: the resolver falls back to the configured name (or main when
none is configured) for primary, and to develop when that branch exists,
else the primary fallback, for develop; when enumeration itself failed,
the handler raises again. -/
theorem C9_amended (name : String) (branches : List String) :
    determine_git_flow_branches name (Except.ok branches) (Except.error ()) =
      Except.ok (if name = "" then "main" else name,
        if branches.contains "develop" then "develop"
        else if name = "" then "main" else name) := by
  rfl

/-- C10: a get_tracked_files call that hits the per-commit cache merges
the normalized staged paths into the cache entry itself, and every path
already in the cached set (in particular one staged during an earlier
cache-hit call and since removed from the index) appears in the result of
every such call unless the ignore filter rejects it. -/
theorem C10_cache_aliasing (norm : String → String) (ignored_file : String → Bool)
    (snap : RepoSnapshot) (cache : List (Nat × Finset String)) (c : Nat) (s : Finset String)
    (hhead : snap.head_commit = some c)
    (hcache : cache.lookup c = some s) :
    (get_tracked_files norm ignored_file snap cache).2.lookup c =
      some (s ∪ (snap.staged_paths.map norm).toFinset) ∧
    (∀ p ∈ s, ignored_file p = false →
      p ∈ (get_tracked_files norm ignored_file snap cache).1) := by
  constructor
  · simp only [get_tracked_files, hhead, hcache]
    exact lookup_replace_entry c _ cache s hcache
  · intro p hp hip
    simp [get_tracked_files, hhead, hcache, Finset.mem_filter, Finset.mem_union, hp, hip]

/-- C10 witness: a concrete cache-hit call keeps the cached path x in the
entry and returns it although x is not staged. -/
theorem C10_witness :
    (get_tracked_files (fun a => a) (fun _ => false) snapW [(1, ({"x"} : Finset String))]).2.lookup 1 =
      some (({"x"} : Finset String) ∪ (snapW.staged_paths.map (fun a => a)).toFinset) ∧
    "x" ∈ (get_tracked_files (fun a => a) (fun _ => false) snapW [(1, ({"x"} : Finset String))]).1 := by
  have h := C10_cache_aliasing (fun a => a) (fun _ => false) snapW
    [(1, ({"x"} : Finset String))] 1 {"x"} rfl rfl
  exact ⟨h.1, h.2 "x" (by decide) rfl⟩

end AiderRepo
